import Mathlib

/-
  Shallow embedding of the wallet-balance ledger core of the expense-tracker
  app (src/app.py).  SQLite REAL amounts are modelled as exact rationals;
  the four tables are modelled as lists of records; AUTOINCREMENT ids are
  modelled by explicit next-id counters.  Each Dash callback that mutates the
  store is translated into a pure function `Store → args → Store × Result`,
  following the Python control flow line by line.
-/

set_option autoImplicit false

namespace ExpensesTracker

/-- One row of the `categories` table: id plus a UNIQUE name. -/
structure Category where
  id : Nat
  name : String
deriving DecidableEq

/-- One row of the `wallets` table (app.py schema, lines 57-65). -/
structure Wallet where
  id : Nat
  wtype : String
  name : String
  opening_balance : ℚ
  current_balance : ℚ
  mpesa_number : Option String
  is_archived : Bool
deriving DecidableEq

/-- One row of the `expenses` table (app.py schema, lines 66-75).
The subcategory value is stored exactly as the callback passes it
(a string id or none after the sentinel conversion). -/
structure Expense where
  id : Nat
  date : String
  time : String
  amount : ℚ
  wallet_id : Nat
  category_id : Nat
  subcategory_id : Option String
  description : Option String
deriving DecidableEq

/-- The persistent store: the three row lists the claims touch, plus the
AUTOINCREMENT counters for fresh ids. -/
structure Store where
  categories : List Category
  wallets : List Wallet
  expenses : List Expense
  nextCategoryId : Nat
  nextWalletId : Nat
  nextExpenseId : Nat
deriving DecidableEq

/-- `wallet_types = ['Cash', 'Mpesa', 'Bank']` (app.py line 91). -/
def wallet_types : List String := ["Cash", "Mpesa", "Bank"]

/-- Python truthiness of an optional string: `None` and `""` are falsy. -/
def truthyStr : Option String → Bool
  | none => false
  | some t => t != ""

/-- Python truthiness of an optional integer id: `None` and `0` are falsy. -/
def truthyNat : Option Nat → Bool
  | none => false
  | some n => n != 0

/-- Strip leading and trailing whitespace from a character list
(Python `str.strip()`). -/
def stripChars (l : List Char) : List Char :=
  ((l.dropWhile Char.isWhitespace).reverse.dropWhile Char.isWhitespace).reverse

/-- `sanitize_input` (app.py lines 95-99): non-strings become `""`;
otherwise strip surrounding whitespace and drop every character that is not
alphanumeric, underscore, whitespace or hyphen (the regex
class `\w`, `\s` or hyphen, over ASCII). -/
def sanitize_input (t : Option String) : String :=
  match t with
  | none => ""
  | some s =>
      String.mk ((stripChars s.data).filter
        (fun c => c.isAlphanum || c == '_' || c.isWhitespace || c == '-'))

/-- `sanitize_input(x) if x else None`, the pattern used for the optional
description and mpesa-number fields. -/
def sanitizeOpt (t : Option String) : Option String :=
  match t with
  | none => none
  | some x => if x == "" then none else some (sanitize_input (some x))

/-- Outcome of one attempted store operation, as seen by
`execute_with_retry`: success, a transient `database is locked`
OperationalError, or any other `sqlite3.Error`. -/
inductive StoreOutcome where
  | ok
  | locked
  | otherErr
deriving DecidableEq

/-- What `execute_with_retry` does in the end: return normally after the
recorded attempt, re-raise a locked error or another store error from that
attempt, or fall off the loop returning `None` (only possible when
`retries = 0`). -/
inductive RetryResult where
  | success (attempt : Nat)
  | raisedLocked (attempt : Nat)
  | raisedOther (attempt : Nat)
  | noneReturned
deriving DecidableEq

/-- The retry loop of `execute_with_retry` (app.py lines 101-119), starting
at a given attempt index.  Returns the result together with the list of
`time.sleep` delays performed (`base_delay * 2 ** attempt` before each
re-attempt). -/
def retryAux (outcomes : Nat → StoreOutcome) (retries : Nat) (base : ℚ)
    (attempt : Nat) : RetryResult × List ℚ :=
  if h : retries ≤ attempt then (RetryResult.noneReturned, [])
  else
    match outcomes attempt with
    | StoreOutcome.ok => (RetryResult.success attempt, [])
    | StoreOutcome.locked =>
        if attempt < retries - 1 then
          let r := retryAux outcomes retries base (attempt + 1)
          (r.1, base * 2 ^ attempt :: r.2)
        else (RetryResult.raisedLocked attempt, [])
    | StoreOutcome.otherErr => (RetryResult.raisedOther attempt, [])
termination_by retries - attempt
decreasing_by
  simp only [not_le] at h
  omega

/-- `execute_with_retry(query, params, retries, base_delay)`:
the loop starts at attempt 0. -/
def execute_with_retry (outcomes : Nat → StoreOutcome) (retries : Nat)
    (base : ℚ) : RetryResult × List ℚ :=
  retryAux outcomes retries base 0

/-- `get_categories` (app.py lines 121-129): the query runs through
`execute_with_retry` with the default bounds (retries 3, base delay 2);
if that ultimately raises a `sqlite3.Error`, the `except` branch returns an
empty frame, i.e. an empty category list. -/
def get_categories (s : Store) (outcomes : Nat → StoreOutcome) :
    List Category :=
  match (execute_with_retry outcomes 3 2).1 with
  | RetryResult.success _ => s.categories
  | _ => []

/-- `count_active_wallets` (app.py lines 155-161):
`SELECT COUNT(*) FROM wallets WHERE is_archived = 0`. -/
def count_active_wallets (s : Store) : Nat :=
  (s.wallets.filter (fun w => w.is_archived == false)).length

/-- `is_wallet_unused` (app.py lines 163-169): true iff no expense row
references the wallet. -/
def is_wallet_unused (s : Store) (wallet_id : Nat) : Bool :=
  (s.expenses.filter (fun e => e.wallet_id == wallet_id)).length == 0

/-- Result of the `add_category` callback, as signalled through its outputs:
an empty/invalid name raises the error toast; otherwise the
`INSERT OR IGNORE` succeeds (silently ignoring a duplicate) and the error
toast stays closed.  `duplicateName` stands for the
`except sqlite3.IntegrityError` branch (app.py lines 502-504), which is
unreachable because `INSERT OR IGNORE` never raises on the UNIQUE
constraint. -/
inductive AddCategoryResult where
  | invalidName
  | ok
  | duplicateName
deriving DecidableEq

/-- `add_category` (app.py lines 489-507): sanitize, reject empty,
`INSERT OR IGNORE INTO categories (name) VALUES (?)`. -/
def add_category (s : Store) (name : Option String) :
    Store × AddCategoryResult :=
  let n := sanitize_input name
  if n == "" then (s, AddCategoryResult.invalidName)
  else if s.categories.any (fun c => c.name == n) then (s, AddCategoryResult.ok)
  else
    ({ s with
        categories := s.categories ++ [{ id := s.nextCategoryId, name := n }],
        nextCategoryId := s.nextCategoryId + 1 },
     AddCategoryResult.ok)

/-- Result of the `add_wallet` callback: validation failure (error toast),
the `sqlite3.IntegrityError` raised by the UNIQUE(name) constraint, or
success. -/
inductive AddWalletResult where
  | invalidInput
  | duplicateName
  | ok
deriving DecidableEq

/-- `add_wallet` (app.py lines 581-605): sanitize name and mpesa number,
reject when `not all([name, wtype, opening is not None]) or opening < 0`,
then plain INSERT (IntegrityError on a duplicate name); on success the new
row has `current_balance = opening_balance = opening` and
`is_archived = 0`.  Note the Python code never checks that `wtype` is one
of `wallet_types`; only truthiness is required. -/
def add_wallet (s : Store) (name wtype : Option String) (opening : Option ℚ)
    (mpesa : Option String) : Store × AddWalletResult :=
  if sanitize_input name != "" && truthyStr wtype && opening.isSome
      && decide (0 ≤ opening.getD 0) then
    if s.wallets.any (fun w => w.name == sanitize_input name) then
      (s, AddWalletResult.duplicateName)
    else
      ({ s with
          wallets := s.wallets ++
            [{ id := s.nextWalletId, wtype := wtype.getD "",
               name := sanitize_input name,
               opening_balance := opening.getD 0,
               current_balance := opening.getD 0,
               mpesa_number := sanitizeOpt mpesa, is_archived := false }],
          nextWalletId := s.nextWalletId + 1 },
       AddWalletResult.ok)
  else (s, AddWalletResult.invalidInput)

/-- Which column of the wallets table was clicked in
`handle_wallet_action`. -/
inductive WalletAction where
  | archive
  | delete
deriving DecidableEq

/-- The toast outcome of `handle_wallet_action` (app.py lines 621-686). -/
inductive WalletActionResult where
  | noUpdate
  | archiveBlocked
  | archivedOk
  | unarchivedOk
  | deleteBlockedArchived
  | deleteBlockedHasExpenses
  | deletedOk
deriving DecidableEq

/-- `handle_wallet_action` (app.py lines 621-686).  `statusArchived` is the
clicked row's `Status == 'Archived'` flag.  Archive: blocked when archiving
and `count_active_wallets() <= 1`, else flips `is_archived`.  Delete:
blocked when the row is archived, blocked when `is_wallet_unused` is false,
else `DELETE FROM wallets WHERE id = ?`. -/
def handle_wallet_action (s : Store) (action : WalletAction)
    (wallet_id : Nat) (statusArchived : Bool) : Store × WalletActionResult :=
  if wallet_id == 0 then (s, WalletActionResult.noUpdate)
  else
    match action with
    | WalletAction.archive =>
        if !statusArchived && decide (count_active_wallets s ≤ 1) then
          (s, WalletActionResult.archiveBlocked)
        else
          ({ s with
              wallets := s.wallets.map (fun w =>
                if w.id == wallet_id then { w with is_archived := !statusArchived }
                else w) },
           if statusArchived then WalletActionResult.unarchivedOk
           else WalletActionResult.archivedOk)
    | WalletAction.delete =>
        if statusArchived then (s, WalletActionResult.deleteBlockedArchived)
        else if !(is_wallet_unused s wallet_id) then
          (s, WalletActionResult.deleteBlockedHasExpenses)
        else
          ({ s with wallets := s.wallets.filter (fun w => w.id != wallet_id) },
           WalletActionResult.deletedOk)

/-- The outcome of `save_expense` as signalled through its toasts
(app.py lines 732-776). -/
inductive SaveResult where
  | validationError
  | walletNotFound
  | walletArchived (wname : String)
  | insufficientBalance (wname : String) (balance : ℚ)
  | saved (newBalance : ℚ)
deriving DecidableEq

/-- `save_expense` (app.py lines 732-776): validate the inputs
(`not all([date, hour, minute, amount is not None, wallet_id, category_id])
or amount <= 0`), fetch the wallet row, reject archived wallets, reject
`balance < amount`, then atomically insert the expense row and debit the
wallet's `current_balance` by `amount`. -/
def save_expense (s : Store) (date hour minute : Option String)
    (amount : Option ℚ) (wallet_id category_id : Option Nat)
    (subcategory_id desc : Option String) : Store × SaveResult :=
  if truthyStr date && truthyStr hour && truthyStr minute && amount.isSome
      && truthyNat wallet_id && truthyNat category_id
      && decide (0 < amount.getD 0) then
    match s.wallets.find? (fun w => w.id == wallet_id.getD 0) with
    | none => (s, SaveResult.walletNotFound)
    | some w =>
        if w.is_archived then (s, SaveResult.walletArchived w.name)
        else if w.current_balance < amount.getD 0 then
          (s, SaveResult.insufficientBalance w.name w.current_balance)
        else
          ({ s with
              expenses := s.expenses ++
                [{ id := s.nextExpenseId, date := date.getD "",
                   time := hour.getD "" ++ ":" ++ minute.getD "",
                   amount := amount.getD 0, wallet_id := wallet_id.getD 0,
                   category_id := category_id.getD 0,
                   subcategory_id :=
                     if subcategory_id == some "none" then none
                     else subcategory_id,
                   description := sanitizeOpt desc }],
              wallets := s.wallets.map (fun x =>
                if x.id == wallet_id.getD 0 then
                  { x with current_balance := x.current_balance - amount.getD 0 }
                else x),
              nextExpenseId := s.nextExpenseId + 1 },
           SaveResult.saved (w.current_balance - amount.getD 0))
  else (s, SaveResult.validationError)

/-- `delete_expense` (app.py lines 815-846), confirm path: a falsy
expense id prevents the update; a missing expense row prevents the update;
otherwise atomically delete the expense row and credit the owning wallet's
`current_balance` by its amount.  The owning wallet's archived flag is
never consulted.  The Bool is true iff the deletion happened. -/
def delete_expense (s : Store) (expense_id : Nat) : Store × Bool :=
  if expense_id == 0 then (s, false)
  else
    match s.expenses.find? (fun e => e.id == expense_id) with
    | none => (s, false)
    | some e =>
        ({ s with
            expenses := s.expenses.filter (fun x => x.id != expense_id),
            wallets := s.wallets.map (fun w =>
              if w.id == e.wallet_id then
                { w with current_balance := w.current_balance + e.amount }
              else w) },
         true)

/-- One ledger operation against the store: a `save_expense` call with its
raw inputs, or a `delete_expense` call. -/
inductive Op where
  | record (date hour minute : Option String) (amount : Option ℚ)
      (wallet_id category_id : Option Nat) (subcategory_id desc : Option String)
  | remove (expense_id : Nat)

/-- Apply one operation, keeping the resulting store. -/
def applyOp (s : Store) : Op → Store
  | Op.record d h m a wi ci sc ds => (save_expense s d h m a wi ci sc ds).1
  | Op.remove eid => (delete_expense s eid).1

/-- Run a sequence of ledger operations left to right. -/
def runOps (s : Store) : List Op → Store
  | [] => s
  | op :: rest => runOps (applyOp s op) rest

/-- Sum of the amounts of the expenses recorded against wallet id `wid`. -/
def sumFor : List Expense → Nat → ℚ
  | [], _ => 0
  | e :: rest, wid => (if e.wallet_id = wid then e.amount else 0) + sumFor rest wid

/-- The ledger invariant of the spec: every wallet's running balance equals
its opening balance minus the amounts currently recorded against it. -/
def balanceInvariant (s : Store) : Prop :=
  ∀ w ∈ s.wallets, w.current_balance = w.opening_balance - sumFor s.expenses w.id

/-- Store well-formedness maintained by SQLite's AUTOINCREMENT primary key:
every expense id is below the next fresh id, and expense ids are distinct. -/
def WF (s : Store) : Prop :=
  (∀ e ∈ s.expenses, e.id < s.nextExpenseId) ∧ (s.expenses.map Expense.id).Nodup

instance (s : Store) : Decidable (balanceInvariant s) := by
  unfold balanceInvariant
  infer_instance

instance (s : Store) : Decidable (WF s) := by
  unfold WF
  infer_instance

/-- The freshly initialized database (app.py lines 77-84): five seed
categories, the Cash wallet at 1000 and the Mpesa wallet at 500, both
active, and no expenses. -/
def initStore : Store :=
  { categories :=
      [{ id := 1, name := "Food" }, { id := 2, name := "Transport" },
       { id := 3, name := "Utilities" }, { id := 4, name := "Entertainment" },
       { id := 5, name := "Other" }],
    wallets :=
      [{ id := 1, wtype := "Cash", name := "Main Wallet",
         opening_balance := 1000, current_balance := 1000,
         mpesa_number := none, is_archived := false },
       { id := 2, wtype := "Mpesa", name := "Mpesa Wallet",
         opening_balance := 500, current_balance := 500,
         mpesa_number := some "1234567890", is_archived := false }],
    expenses := [],
    nextCategoryId := 6, nextWalletId := 3, nextExpenseId := 1 }

/-! ## Helper lemmas -/

lemma sumFor_append (l₁ l₂ : List Expense) (wid : Nat) :
    sumFor (l₁ ++ l₂) wid = sumFor l₁ wid + sumFor l₂ wid := by
  induction l₁ with
  | nil => simp [sumFor]
  | cons e rest ih => simp [sumFor, ih]; ring

lemma find?_append_of_none {l₁ l₂ : List Expense} {p : Expense → Bool}
    (h : l₁.find? p = none) : (l₁ ++ l₂).find? p = l₂.find? p := by
  induction l₁ with
  | nil => simp
  | cons x rest ih =>
      cases hx : p x with
      | true => simp [List.find?_cons, hx] at h
      | false =>
          rw [List.find?_cons_of_neg _ (by simp [hx])] at h
          simpa [List.find?_cons, hx] using ih h

lemma sumFor_filter_of_find {l : List Expense} {eid : Nat} {e : Expense}
    (hnd : (l.map Expense.id).Nodup)
    (hf : l.find? (fun x => x.id == eid) = some e) (wid : Nat) :
    sumFor (l.filter (fun x => x.id != eid)) wid
      = sumFor l wid - (if e.wallet_id = wid then e.amount else 0) := by
  induction l with
  | nil => simp at hf
  | cons x rest ih =>
      simp only [List.map_cons, List.nodup_cons] at hnd
      by_cases hx : x.id = eid
      · have hxe : x = e := by
          rw [List.find?_cons_of_pos _ (by simp [hx])] at hf
          exact Option.some.inj hf
        subst hxe
        have hrest : rest.filter (fun y => y.id != eid) = rest := by
          apply List.filter_eq_self.mpr
          intro y hy
          simp only [ne_eq, bne_iff_ne]
          intro hcon
          exact hnd.1 (by
            rw [hx, ← hcon]
            exact List.mem_map_of_mem Expense.id hy)
        have hxne : (x.id != eid) = false := by simp [hx]
        simp [List.filter_cons, hxne, hrest, sumFor]
      · have hxne : (x.id != eid) = true := by simp [hx]
        rw [List.find?_cons_of_neg _ (by simp [hx])] at hf
        simp [List.filter_cons, hxne, sumFor, ih hnd.2 hf]
        ring

lemma map_eq_self {α : Type} (l : List α) (f : α → α)
    (h : ∀ x ∈ l, f x = x) : l.map f = l := by
  induction l with
  | nil => simp
  | cons x rest ih =>
      simp only [List.map_cons, h x (List.mem_cons_self x rest),
        List.cons.injEq, true_and]
      exact ih (fun y hy => h y (List.mem_cons_of_mem x hy))

/-- `save_expense` preserves well-formedness and the ledger invariant. -/
lemma save_expense_preserves (s : Store) (d h m : Option String)
    (a : Option ℚ) (wi ci : Option Nat) (sc ds : Option String)
    (hWF : WF s) (hInv : balanceInvariant s) :
    WF (save_expense s d h m a wi ci sc ds).1 ∧
      balanceInvariant (save_expense s d h m a wi ci sc ds).1 := by
  unfold save_expense
  split
  case isFalse => exact ⟨hWF, hInv⟩
  case isTrue hvalid =>
    cases hfind : s.wallets.find? (fun w => w.id == wi.getD 0) with
    | none => exact ⟨hWF, hInv⟩
    | some w =>
        by_cases harch : w.is_archived
        · simp only [harch, if_true]
          exact ⟨hWF, hInv⟩
        · by_cases hbal : w.current_balance < a.getD 0
          · simp only [harch, if_false, Bool.false_eq_true, hbal, if_true]
            exact ⟨hWF, hInv⟩
          · simp only [harch, Bool.false_eq_true, if_false, hbal, if_true]
            constructor
            · constructor
              · intro e he
                rcases List.mem_append.1 he with hold | hnew
                · exact Nat.lt_succ_of_lt (hWF.1 e hold)
                · rcases List.mem_singleton.1 hnew with rfl
                  exact Nat.lt_succ_self _
              · simp only [List.map_append, List.map_cons, List.map_nil]
                rw [List.nodup_append]
                refine ⟨hWF.2, List.nodup_singleton _, ?_⟩
                intro x hx
                rcases List.mem_map.1 hx with ⟨e, he, rfl⟩
                simp only [List.mem_singleton]
                exact fun hcon => absurd hcon (Nat.ne_of_lt (hWF.1 e he))
            · intro w' hw'
              rcases List.mem_map.1 hw' with ⟨w0, hw0, rfl⟩
              have hbase := hInv w0 hw0
              by_cases hid : w0.id = wi.getD 0
              · have hbeq : (w0.id == wi.getD 0) = true := by simp [hid]
                simp only [hbeq, if_true]
                rw [sumFor_append]
                simp [sumFor, hid, hbase]
                ring
              · have hbeq : (w0.id == wi.getD 0) = false := by simp [hid]
                simp only [hbeq, Bool.false_eq_true, if_false]
                rw [sumFor_append]
                have hne : ¬ (wi.getD 0 = w0.id) := fun hcon => hid hcon.symm
                simp [sumFor, hne, hbase]

/-- `delete_expense` preserves well-formedness and the ledger invariant. -/
lemma delete_expense_preserves (s : Store) (eid : Nat)
    (hWF : WF s) (hInv : balanceInvariant s) :
    WF (delete_expense s eid).1 ∧ balanceInvariant (delete_expense s eid).1 := by
  unfold delete_expense
  split
  case isTrue => exact ⟨hWF, hInv⟩
  case isFalse hz =>
    cases hfind : s.expenses.find? (fun e => e.id == eid) with
    | none => exact ⟨hWF, hInv⟩
    | some e =>
        constructor
        · constructor
          · intro x hx
            exact hWF.1 x (List.mem_of_mem_filter hx)
          · exact ((List.filter_sublist s.expenses).map Expense.id).nodup hWF.2
        · intro w' hw'
          rcases List.mem_map.1 hw' with ⟨w0, hw0, rfl⟩
          have hbase := hInv w0 hw0
          have hsum := sumFor_filter_of_find hWF.2 hfind w0.id
          by_cases hid : w0.id = e.wallet_id
          · have hbeq : (w0.id == e.wallet_id) = true := by simp [hid]
            simp only [hbeq, if_true]
            rw [hsum]
            simp [hid.symm, hbase]
            ring
          · have hbeq : (w0.id == e.wallet_id) = false := by simp [hid]
            simp only [hbeq, Bool.false_eq_true, if_false]
            rw [hsum]
            have : (if e.wallet_id = w0.id then e.amount else 0) = 0 := by
              simp
              intro hcon
              exact absurd hcon.symm hid
            rw [this, sub_zero, hbase]

/-- Any single ledger operation preserves well-formedness and the
invariant. -/
lemma applyOp_preserves (s : Store) (op : Op)
    (hWF : WF s) (hInv : balanceInvariant s) :
    WF (applyOp s op) ∧ balanceInvariant (applyOp s op) := by
  cases op with
  | record d h m a wi ci sc ds => exact save_expense_preserves s d h m a wi ci sc ds hWF hInv
  | remove eid => exact delete_expense_preserves s eid hWF hInv

lemma runOps_preserves (ops : List Op) : ∀ s : Store,
    WF s → balanceInvariant s →
      WF (runOps s ops) ∧ balanceInvariant (runOps s ops) := by
  induction ops with
  | nil => exact fun s hWF hInv => ⟨hWF, hInv⟩
  | cons op rest ih =>
      intro s hWF hInv
      have hstep := applyOp_preserves s op hWF hInv
      exact ih (applyOp s op) hstep.1 hstep.2

/-! ## Claims -/

/-- Claim C1: for every wallet and every sequence of `save_expense` /
`delete_expense` operations against the store, after each operation every
wallet's `current_balance` equals its `opening_balance` minus the sum of
the amounts of the expenses currently recorded against it (any prefix of
the sequence is itself a sequence, so this covers every intermediate
state). -/
theorem ledger_balance_invariant (s : Store) (ops : List Op)
    (hWF : WF s) (hInv : balanceInvariant s) :
    balanceInvariant (runOps s ops) :=
  (runOps_preserves ops s hWF hInv).2

/-- Witness for C1: the seeded database satisfies the hypotheses, and after
recording a 200 expense against wallet 1, recording 50 against wallet 2 and
deleting expense 1 the invariant still holds. -/
theorem ledger_balance_invariant_witness :
    WF initStore ∧ balanceInvariant initStore ∧
      balanceInvariant (runOps initStore
        [Op.record (some "2025-01-01") (some "12") (some "00") (some 200)
            (some 1) (some 1) (some "none") none,
         Op.record (some "2025-01-02") (some "09") (some "30") (some 50)
            (some 2) (some 2) none (some "bus"),
         Op.remove 1]) :=
  have h1 : WF initStore := by simp [WF, initStore]
  have h2 : balanceInvariant initStore := by
    simp [balanceInvariant, initStore, sumFor]
  ⟨h1, h2, ledger_balance_invariant initStore _ h1 h2⟩

/-- Claim C2: a successful `save_expense` followed immediately by
`delete_expense` of the id it created (the store's next AUTOINCREMENT id)
restores every wallet row — in particular the debited wallet's
`current_balance` — exactly to its pre-record value.  The hypotheses state
the AUTOINCREMENT facts true of every reachable store: existing expense
ids are below the next fresh id, and ids start at 1. -/
theorem record_delete_roundtrip (s : Store) (d h m : Option String)
    (a : Option ℚ) (wi ci : Option Nat) (sc ds : Option String)
    (s' : Store) (nb : ℚ)
    (hlt : ∀ e ∈ s.expenses, e.id < s.nextExpenseId)
    (hnz : s.nextExpenseId ≠ 0)
    (hsave : save_expense s d h m a wi ci sc ds = (s', SaveResult.saved nb)) :
    (delete_expense s' s.nextExpenseId).1.wallets = s.wallets ∧
      (delete_expense s' s.nextExpenseId).2 = true := by
  unfold save_expense at hsave
  split at hsave
  case isFalse => exact absurd (congrArg Prod.snd hsave) (by simp)
  case isTrue hvalid =>
    split at hsave
    case h_1 => exact absurd (congrArg Prod.snd hsave) (by simp)
    case h_2 w hfind =>
      split at hsave
      case isTrue => exact absurd (congrArg Prod.snd hsave) (by simp)
      case isFalse harch =>
        split at hsave
        case isTrue => exact absurd (congrArg Prod.snd hsave) (by simp)
        case isFalse hbal =>
          have hs' := congrArg Prod.fst hsave
          dsimp only at hs'
          subst hs'
          have h0 : (s.nextExpenseId == 0) = false := by simpa using hnz
          have hfindnone :
              s.expenses.find? (fun e => e.id == s.nextExpenseId) = none :=
            List.find?_eq_none.mpr (fun x hx => by
              simp only [beq_iff_eq]
              exact Nat.ne_of_lt (hlt x hx))
          unfold delete_expense
          simp only [h0, Bool.false_eq_true, if_false]
          rw [find?_append_of_none hfindnone]
          simp only [List.find?_cons, beq_self_eq_true]
          constructor
          · show List.map _ (List.map _ s.wallets) = s.wallets
            rw [List.map_map]
            apply map_eq_self
            intro x _
            by_cases hx : x.id = wi.getD 0
            · simp [Function.comp, hx, sub_add_cancel]
              rw [← hx]
            · simp [Function.comp, hx]
          · trivial

/-- Witness for C2: recording a 200 expense against the seeded Main Wallet
(balance 1000) succeeds with new balance 800, and deleting the created
expense (id 1) restores the wallet rows exactly. -/
theorem record_delete_roundtrip_witness :
    (∀ e ∈ initStore.expenses, e.id < initStore.nextExpenseId) ∧
      initStore.nextExpenseId ≠ 0 ∧
      save_expense initStore (some "2025-01-01") (some "12") (some "00")
          (some 200) (some 1) (some 1) (some "none") none
        = ((save_expense initStore (some "2025-01-01") (some "12") (some "00")
              (some 200) (some 1) (some 1) (some "none") none).1,
           SaveResult.saved 800) ∧
      (delete_expense
          (save_expense initStore (some "2025-01-01") (some "12") (some "00")
              (some 200) (some 1) (some 1) (some "none") none).1
          initStore.nextExpenseId).1.wallets = initStore.wallets :=
  have hlt : ∀ e ∈ initStore.expenses, e.id < initStore.nextExpenseId := by
    simp [initStore]
  have hnz : initStore.nextExpenseId ≠ 0 := by simp [initStore]
  have hsave : save_expense initStore (some "2025-01-01") (some "12")
      (some "00") (some 200) (some 1) (some 1) (some "none") none
      = ((save_expense initStore (some "2025-01-01") (some "12") (some "00")
            (some 200) (some 1) (some 1) (some "none") none).1,
         SaveResult.saved 800) := by
    simp [save_expense, initStore, truthyStr, truthyNat, List.find?]
    norm_num
  ⟨hlt, hnz, hsave,
    (record_delete_roundtrip initStore (some "2025-01-01") (some "12")
        (some "00") (some 200) (some 1) (some 1) (some "none") none _ 800
        hlt hnz hsave).1⟩

/-- A store holding a single archived wallet named "W" with balance 10,
used to refute claim C3 as stated. -/
def archStore : Store :=
  { categories := [{ id := 1, name := "Food" }],
    wallets :=
      [{ id := 1, wtype := "Cash", name := "W", opening_balance := 10,
         current_balance := 10, mpesa_number := none, is_archived := true }],
    expenses := [],
    nextCategoryId := 2, nextWalletId := 2, nextExpenseId := 1 }

/-- Counterexample to claim C3 as stated: for the archived wallet "W"
with `current_balance = 10` and amount `20 > 10`, `save_expense` fails
with `WalletArchived`, not `InsufficientBalance` — the archived check runs
before the balance check. -/
theorem insufficient_balance_claim_cex :
    (save_expense archStore (some "2025-01-01") (some "12") (some "00")
        (some 20) (some 1) (some 1) none none).2
      = SaveResult.walletArchived "W" ∧
    (save_expense archStore (some "2025-01-01") (some "12") (some "00")
        (some 20) (some 1) (some 1) none none).2
      ≠ SaveResult.insufficientBalance "W" 10 ∧
    (10 : ℚ) < 20 := by
  refine ⟨?_, ?_, by norm_num⟩ <;>
    simp [save_expense, archStore, truthyStr, truthyNat, List.find?]

/-- Claim C3 as amended: for an existing, NON-archived wallet and
otherwise-valid inputs (date/hour/minute present, nonzero wallet and
category ids, amount > 0), when the amount strictly exceeds the wallet's
`current_balance`, `save_expense` fails with `InsufficientBalance` and
performs no mutation (the store is returned unchanged, so balance and
expense count are untouched).  An archived wallet fails with
`WalletArchived` instead, which is why the claim as stated is amended. -/
theorem insufficient_balance_no_mutation (s : Store) (d h m : Option String)
    (a : ℚ) (wi ci : Option Nat) (sc ds : Option String) (w : Wallet)
    (hd : truthyStr d = true) (hh : truthyStr h = true)
    (hm : truthyStr m = true) (hwi : truthyNat wi = true)
    (hci : truthyNat ci = true) (ha : 0 < a)
    (hfind : s.wallets.find? (fun x => x.id == wi.getD 0) = some w)
    (harch : w.is_archived = false)
    (hbal : w.current_balance < a) :
    save_expense s d h m (some a) wi ci sc ds
      = (s, SaveResult.insufficientBalance w.name w.current_balance) := by
  unfold save_expense
  have hcond : (truthyStr d && truthyStr h && truthyStr m
      && (some a).isSome && truthyNat wi && truthyNat ci
      && decide (0 < (some a).getD 0)) = true := by
    simp [hd, hh, hm, hwi, hci, ha]
  rw [if_pos hcond, hfind]
  simp [harch, hbal]

/-- Witness for the amended C3: in the seeded store, recording 2000
against Main Wallet (active, balance 1000) fails with
`InsufficientBalance("Main Wallet", 1000)` and leaves the store
untouched. -/
theorem insufficient_balance_no_mutation_witness :
    truthyStr (some "2025-01-01") = true ∧ (0 : ℚ) < 2000 ∧
    initStore.wallets.find? (fun x => x.id == (some 1 : Option Nat).getD 0)
      = some { id := 1, wtype := "Cash", name := "Main Wallet",
               opening_balance := 1000, current_balance := 1000,
               mpesa_number := none, is_archived := false } ∧
    save_expense initStore (some "2025-01-01") (some "12") (some "00")
        (some 2000) (some 1) (some 1) none none
      = (initStore, SaveResult.insufficientBalance "Main Wallet" 1000) :=
  ⟨by decide, by norm_num, by decide,
    insufficient_balance_no_mutation initStore (some "2025-01-01")
      (some "12") (some "00") 2000 (some 1) (some 1) none none
      { id := 1, wtype := "Cash", name := "Main Wallet",
        opening_balance := 1000, current_balance := 1000,
        mpesa_number := none, is_archived := false }
      (by decide) (by decide) (by decide) (by decide) (by decide)
      (by norm_num) (by decide) (by decide) (by norm_num)⟩

/-- The empty store, used for the category scenario. -/
def emptyStore : Store :=
  { categories := [], wallets := [], expenses := [],
    nextCategoryId := 1, nextWalletId := 1, nextExpenseId := 1 }

/-- Counterexample to claim C4 as stated: starting from the empty store,
`add_category("Food")` twice — the second call does NOT fail with
`DuplicateName` (the insert is `INSERT OR IGNORE`, which never raises the
IntegrityError that the duplicate handler would translate); it reports
success, though the category list does still contain exactly one
"Food". -/
theorem duplicate_category_claim_cex :
    (add_category (add_category emptyStore (some "Food")).1 (some "Food")).2
        = AddCategoryResult.ok ∧
    (add_category (add_category emptyStore (some "Food")).1 (some "Food")).2
        ≠ AddCategoryResult.duplicateName ∧
    ((add_category (add_category emptyStore (some "Food")).1
        (some "Food")).1.categories.filter
          (fun c => c.name == "Food")).length = 1 := by
  decide

/-- Claim C4 as amended: calling `add_category` with a name whose sanitized
form already names an existing category does not fail — the
`INSERT OR IGNORE` silently ignores the duplicate and the callback reports
success with the store unchanged — and consequently the category list still
contains exactly as many (in the scenario: exactly one) categories of that
name as before. -/
theorem duplicate_category_silent_ignore (s : Store) (name : Option String)
    (hne : sanitize_input name ≠ "")
    (hdup : ∃ c ∈ s.categories, c.name = sanitize_input name) :
    add_category s name = (s, AddCategoryResult.ok) := by
  unfold add_category
  have h1 : (sanitize_input name == "") = false := by simpa using hne
  have h2 : (s.categories.any (fun c => c.name == sanitize_input name)) = true := by
    rcases hdup with ⟨c, hc, hname⟩
    exact List.any_eq_true.mpr ⟨c, hc, by simp [hname]⟩
  simp [h1, h2]

/-- Witness for the amended C4: after one `add_category("Food")` on the
empty store, a second `add_category("Food")` returns success with the store
unchanged. -/
theorem duplicate_category_silent_ignore_witness :
    sanitize_input (some "Food") ≠ "" ∧
    (∃ c ∈ (add_category emptyStore (some "Food")).1.categories,
        c.name = sanitize_input (some "Food")) ∧
    add_category (add_category emptyStore (some "Food")).1 (some "Food")
      = ((add_category emptyStore (some "Food")).1, AddCategoryResult.ok) :=
  ⟨by decide, by decide,
    duplicate_category_silent_ignore (add_category emptyStore (some "Food")).1
      (some "Food") (by decide) (by decide)⟩

/-- Claim C5: for every expense present in the store (and a nonzero id,
as SQLite ids are), `delete_expense` succeeds and credits the expense's
amount back onto every wallet row carrying the owning wallet's id.  The
hypotheses place no condition whatsoever on the owning wallet's
`is_archived` flag — the code never consults it on the reversal path — so
the reversal succeeds in particular when the wallet is archived at
deletion time. -/
theorem delete_expense_credits_back (s : Store) (eid : Nat) (e : Expense)
    (hnz : eid ≠ 0)
    (hfind : s.expenses.find? (fun x => x.id == eid) = some e) :
    (delete_expense s eid).2 = true ∧
    ∀ w ∈ s.wallets, w.id = e.wallet_id →
      { w with current_balance := w.current_balance + e.amount }
        ∈ (delete_expense s eid).1.wallets := by
  unfold delete_expense
  have h0 : (eid == 0) = false := by simpa using hnz
  simp only [h0, Bool.false_eq_true, if_false]
  rw [hfind]
  refine ⟨rfl, ?_⟩
  intro w hw hid
  refine List.mem_map.2 ⟨w, hw, ?_⟩
  simp [hid]

/-- A store whose only wallet "W" is archived and carries one recorded
expense of amount 6 (balance 4 = opening 10 minus 6). -/
def archUsedStore : Store :=
  { categories := [{ id := 1, name := "Food" }],
    wallets :=
      [{ id := 1, wtype := "Cash", name := "W", opening_balance := 10,
         current_balance := 4, mpesa_number := none, is_archived := true }],
    expenses :=
      [{ id := 1, date := "2025-01-01", time := "12:00", amount := 6,
         wallet_id := 1, category_id := 1, subcategory_id := none,
         description := none }],
    nextCategoryId := 2, nextWalletId := 2, nextExpenseId := 2 }

/-- Witness for C5: deleting expense 1 of the archived wallet "W" succeeds
and the wallet row reappears with its balance credited by the expense's
amount. -/
theorem delete_expense_credits_back_witness :
    (delete_expense archUsedStore 1).2 = true ∧
    { id := 1, wtype := "Cash", name := "W", opening_balance := 10,
        current_balance := 4 + 6, mpesa_number := none, is_archived := true }
      ∈ (delete_expense archUsedStore 1).1.wallets :=
  have happ := delete_expense_credits_back archUsedStore 1
    { id := 1, date := "2025-01-01", time := "12:00", amount := 6,
      wallet_id := 1, category_id := 1, subcategory_id := none,
      description := none }
    (by decide) (by decide)
  ⟨happ.1,
    happ.2
      { id := 1, wtype := "Cash", name := "W", opening_balance := 10,
        current_balance := 4, mpesa_number := none, is_archived := true }
      (by decide) (by decide)⟩

/-- Claim C6: clicking Archive on a non-archived wallet that is the only
active wallet is blocked with the invariant toast and performs no mutation
(so at least one active wallet still exists afterwards); clicking Archive
on an archived (existing) wallet — i.e. unarchiving — always succeeds and
leaves every row with that id active. -/
theorem archive_last_active_guard (s : Store) (wid : Nat) (w : Wallet)
    (hw : w ∈ s.wallets) (hid : w.id = wid) (hnz : wid ≠ 0) :
    (w.is_archived = false → count_active_wallets s = 1 →
      handle_wallet_action s WalletAction.archive wid false
          = (s, WalletActionResult.archiveBlocked) ∧
        1 ≤ count_active_wallets
          (handle_wallet_action s WalletAction.archive wid false).1) ∧
    (w.is_archived = true →
      (handle_wallet_action s WalletAction.archive wid true).2
          = WalletActionResult.unarchivedOk ∧
        ∀ w' ∈ (handle_wallet_action s WalletAction.archive wid true).1.wallets,
          w'.id = wid → w'.is_archived = false) := by
  unfold handle_wallet_action
  have h0 : (wid == 0) = false := by simpa using hnz
  simp only [h0, Bool.false_eq_true, if_false]
  constructor
  · intro _ hcount
    have hcond : (!false && decide (count_active_wallets s ≤ 1)) = true := by
      simp [hcount]
    rw [if_pos hcond]
    exact ⟨rfl, by simp [hcount]⟩
  · intro _
    have hcond : (!true && decide (count_active_wallets s ≤ 1)) = false := by
      simp
    rw [if_neg (by simp [hcond])]
    refine ⟨rfl, ?_⟩
    intro w' hw' hid'
    rcases List.mem_map.1 hw' with ⟨w0, _, rfl⟩
    by_cases hww : w0.id = wid
    · simp [hww]
    · simp [hww] at hid'

/-- Witness for C6, the spec's concrete scenario: in `archUsedStore` plus
one active wallet it is blocked... here directly on the seeded store after
archiving is impossible; we use a one-active-wallet store for the blocking
half and an archived wallet for the unarchiving half. -/
theorem archive_last_active_guard_witness :
    ({ id := 1, wtype := "Cash", name := "W", opening_balance := 10,
        current_balance := 4, mpesa_number := none, is_archived := true }
      ∈ archUsedStore.wallets) ∧
    ((handle_wallet_action archUsedStore WalletAction.archive 1 true).2
        = WalletActionResult.unarchivedOk) ∧
    (handle_wallet_action initStore WalletAction.archive 1 false).2
        ≠ WalletActionResult.archiveBlocked :=
  have happ := archive_last_active_guard archUsedStore 1
    { id := 1, wtype := "Cash", name := "W", opening_balance := 10,
      current_balance := 4, mpesa_number := none, is_archived := true }
    (by decide) (by decide) (by decide)
  ⟨by decide, (happ.2 (by decide)).1, by decide⟩

/-- Claim C7: clicking Delete on an archived wallet row fails without
mutation; clicking Delete on an active wallet that some expense references
fails without mutation; clicking Delete on an active, unreferenced wallet
removes every wallet row with that id from the store. -/
theorem delete_wallet_guards (s : Store) (wid : Nat) (hnz : wid ≠ 0) :
    (handle_wallet_action s WalletAction.delete wid true
        = (s, WalletActionResult.deleteBlockedArchived)) ∧
    ((∃ e ∈ s.expenses, e.wallet_id = wid) →
      handle_wallet_action s WalletAction.delete wid false
        = (s, WalletActionResult.deleteBlockedHasExpenses)) ∧
    ((∀ e ∈ s.expenses, e.wallet_id ≠ wid) →
      (handle_wallet_action s WalletAction.delete wid false).2
          = WalletActionResult.deletedOk ∧
        ∀ w ∈ (handle_wallet_action s WalletAction.delete wid false).1.wallets,
          w.id ≠ wid) := by
  unfold handle_wallet_action
  have h0 : (wid == 0) = false := by simpa using hnz
  simp only [h0, Bool.false_eq_true, if_false]
  refine ⟨rfl, ?_, ?_⟩
  · intro hex
    rcases hex with ⟨e, he, hwe⟩
    have hmem : e ∈ s.expenses.filter (fun x => x.wallet_id == wid) :=
      List.mem_filter.2 ⟨he, by simp [hwe]⟩
    have hunused : is_wallet_unused s wid = false := by
      have hne := List.ne_nil_of_mem hmem
      simp [is_wallet_unused, List.length_eq_zero, hne]
    simp [hunused]
  · intro hall
    have hunused : is_wallet_unused s wid = true := by
      have : s.expenses.filter (fun x => x.wallet_id == wid) = [] :=
        List.filter_eq_nil_iff.mpr (fun e he => by simp [hall e he])
      simp [is_wallet_unused, this]
    simp only [hunused, Bool.not_true, Bool.false_eq_true, if_false]
    refine ⟨trivial, ?_⟩
    intro w hw
    have := List.of_mem_filter hw
    simpa using this

/-- Witness for C7: in the seeded store (no expenses), deleting the archived
row is blocked, and deleting wallet 2 with the active status removes its
row. -/
theorem delete_wallet_guards_witness :
    (handle_wallet_action initStore WalletAction.delete 2 true
        = (initStore, WalletActionResult.deleteBlockedArchived)) ∧
    ((handle_wallet_action initStore WalletAction.delete 2 false).2
        = WalletActionResult.deletedOk ∧
      { id := 2, wtype := "Mpesa", name := "Mpesa Wallet",
          opening_balance := 500, current_balance := 500,
          mpesa_number := some "1234567890", is_archived := false }
        ∉ (handle_wallet_action initStore WalletAction.delete 2 false).1.wallets) :=
  have happ := delete_wallet_guards initStore 2 (by decide)
  have hdel := happ.2.2 (by decide)
  ⟨happ.1,
    hdel.1,
    fun hmem => absurd rfl (hdel.2 _ hmem)⟩

/-- Exhaustive characterization of `execute_with_retry` at the code's
default bound of 3 attempts: the seven possible executions, determined by
the store outcomes of attempts 0, 1 and 2. -/
lemma retry3_cases (outcomes : Nat → StoreOutcome) (base : ℚ) :
    (outcomes 0 = StoreOutcome.ok ∧
      execute_with_retry outcomes 3 base = (RetryResult.success 0, [])) ∨
    (outcomes 0 = StoreOutcome.otherErr ∧
      execute_with_retry outcomes 3 base = (RetryResult.raisedOther 0, [])) ∨
    (outcomes 0 = StoreOutcome.locked ∧ outcomes 1 = StoreOutcome.ok ∧
      execute_with_retry outcomes 3 base
        = (RetryResult.success 1, [base * 2 ^ 0])) ∨
    (outcomes 0 = StoreOutcome.locked ∧ outcomes 1 = StoreOutcome.otherErr ∧
      execute_with_retry outcomes 3 base
        = (RetryResult.raisedOther 1, [base * 2 ^ 0])) ∨
    (outcomes 0 = StoreOutcome.locked ∧ outcomes 1 = StoreOutcome.locked ∧
      outcomes 2 = StoreOutcome.ok ∧
      execute_with_retry outcomes 3 base
        = (RetryResult.success 2, [base * 2 ^ 0, base * 2 ^ 1])) ∨
    (outcomes 0 = StoreOutcome.locked ∧ outcomes 1 = StoreOutcome.locked ∧
      outcomes 2 = StoreOutcome.otherErr ∧
      execute_with_retry outcomes 3 base
        = (RetryResult.raisedOther 2, [base * 2 ^ 0, base * 2 ^ 1])) ∨
    (outcomes 0 = StoreOutcome.locked ∧ outcomes 1 = StoreOutcome.locked ∧
      outcomes 2 = StoreOutcome.locked ∧
      execute_with_retry outcomes 3 base
        = (RetryResult.raisedLocked 2, [base * 2 ^ 0, base * 2 ^ 1])) := by
  cases h0 : outcomes 0 with
  | ok => exact Or.inl ⟨rfl, by simp [execute_with_retry, retryAux, h0]⟩
  | otherErr =>
      exact Or.inr (Or.inl ⟨rfl, by simp [execute_with_retry, retryAux, h0]⟩)
  | locked =>
      cases h1 : outcomes 1 with
      | ok =>
          refine Or.inr (Or.inr (Or.inl ⟨rfl, rfl, ?_⟩))
          simp [execute_with_retry, retryAux, h0, h1]
      | otherErr =>
          refine Or.inr (Or.inr (Or.inr (Or.inl ⟨rfl, rfl, ?_⟩)))
          simp [execute_with_retry, retryAux, h0, h1]
      | locked =>
          cases h2 : outcomes 2 with
          | ok =>
              refine Or.inr (Or.inr (Or.inr (Or.inr (Or.inl ⟨rfl, rfl, rfl, ?_⟩))))
              simp [execute_with_retry, retryAux, h0, h1, h2]
          | otherErr =>
              refine Or.inr (Or.inr (Or.inr (Or.inr (Or.inr (Or.inl
                ⟨rfl, rfl, rfl, ?_⟩)))))
              simp [execute_with_retry, retryAux, h0, h1, h2]
          | locked =>
              refine Or.inr (Or.inr (Or.inr (Or.inr (Or.inr (Or.inr
                ⟨rfl, rfl, rfl, ?_⟩)))))
              simp [execute_with_retry, retryAux, h0, h1, h2]

/-- Claim C8: with the code's defaults (`retries=3`), `execute_with_retry`
attempts the operation at most 3 times (attempt indices at most 2); it
never falls through silently; it sleeps only between attempts, with the
delay `base * 2 ^ attempt` doubling each attempt; every sleep (hence every
re-attempt) follows a transient locked error; a locked error is raised only
on the final (third) attempt; and any other store error is raised from the
very attempt on which it occurred. -/
theorem retry_policy_spec (outcomes : Nat → StoreOutcome) (base : ℚ) :
    (execute_with_retry outcomes 3 base).1 ≠ RetryResult.noneReturned ∧
    (∀ k, (execute_with_retry outcomes 3 base).1 = RetryResult.success k →
      k ≤ 2 ∧ outcomes k = StoreOutcome.ok) ∧
    (∀ k, (execute_with_retry outcomes 3 base).1 = RetryResult.raisedLocked k →
      k = 2 ∧ outcomes k = StoreOutcome.locked) ∧
    (∀ k, (execute_with_retry outcomes 3 base).1 = RetryResult.raisedOther k →
      k ≤ 2 ∧ outcomes k = StoreOutcome.otherErr) ∧
    (execute_with_retry outcomes 3 base).2.length ≤ 2 ∧
    (execute_with_retry outcomes 3 base).2
      = (List.range (execute_with_retry outcomes 3 base).2.length).map
          (fun i => base * 2 ^ i) ∧
    (∀ i < (execute_with_retry outcomes 3 base).2.length,
      outcomes i = StoreOutcome.locked) := by
  rcases retry3_cases outcomes base with
      ⟨h0, heq⟩ | ⟨h0, heq⟩ | ⟨h0, h1, heq⟩ | ⟨h0, h1, heq⟩ |
      ⟨h0, h1, h2, heq⟩ | ⟨h0, h1, h2, heq⟩ | ⟨h0, h1, h2, heq⟩ <;>
    rw [heq] <;>
    refine ⟨by simp, ?_, ?_, ?_, by simp, by simp [List.range_succ], ?_⟩ <;>
    first
      | (intro k hk
         first
           | (simp at hk
              done)
           | (injection hk with hk'
              subst hk'
              refine ⟨by omega, by assumption⟩))
      | (intro i hi
         simp only [List.length_cons, List.length_nil] at hi
         first
           | omega
           | (interval_cases i <;> assumption))

/-- Witness for C8 at a concrete outcome sequence: a permanently locked
store makes `execute_with_retry` raise the locked error (never a silent
`None`), after sleeping twice. -/
theorem retry_policy_spec_witness :
    (execute_with_retry (fun _ => StoreOutcome.locked) 3 2).1
      ≠ RetryResult.noneReturned ∧
    (execute_with_retry (fun _ => StoreOutcome.locked) 3 2).2.length ≤ 2 :=
  have happ := retry_policy_spec (fun _ => StoreOutcome.locked) 2
  ⟨happ.1, happ.2.2.2.2.1⟩

/-- Counterexample to claim C9 as stated: `add_wallet` with type "Chama",
which is not one of {Cash, Mpesa, Bank}, is NOT rejected — the callback
only checks truthiness of the type, so the insert succeeds and mutates the
store. -/
theorem add_wallet_type_not_validated_cex :
    "Chama" ∉ wallet_types ∧
    (add_wallet emptyStore (some "Foo") (some "Chama") (some 5) none).2
        = AddWalletResult.ok ∧
    (add_wallet emptyStore (some "Foo") (some "Chama") (some 5) none).1
        ≠ emptyStore := by
  decide

/-- Claim C9 as amended: `add_wallet` rejects the request without mutation
when the sanitized name is empty, the type is missing or empty, or the
opening balance is missing or negative — but it does NOT check that the
type belongs to {Cash, Mpesa, Bank} (that restriction lives only in the UI
dropdown options); with valid inputs it fails with `DuplicateName` (and no
mutation) when a wallet of that name exists, and otherwise succeeds,
appending a wallet whose `current_balance` equals the opening balance and
whose `is_archived` is false. -/
theorem add_wallet_validation_amended (s : Store) (name wtype : Option String)
    (opening : Option ℚ) (mpesa : Option String) :
    ((sanitize_input name = "" ∨ truthyStr wtype = false ∨ opening = none ∨
        opening.getD 0 < 0) →
      add_wallet s name wtype opening mpesa = (s, AddWalletResult.invalidInput)) ∧
    (sanitize_input name ≠ "" → truthyStr wtype = true →
      opening.isSome = true → 0 ≤ opening.getD 0 →
      ((s.wallets.any (fun w => w.name == sanitize_input name) = true →
          add_wallet s name wtype opening mpesa
            = (s, AddWalletResult.duplicateName)) ∧
       (s.wallets.any (fun w => w.name == sanitize_input name) = false →
          (add_wallet s name wtype opening mpesa).2 = AddWalletResult.ok ∧
          { id := s.nextWalletId, wtype := wtype.getD "",
              name := sanitize_input name,
              opening_balance := opening.getD 0,
              current_balance := opening.getD 0,
              mpesa_number := sanitizeOpt mpesa, is_archived := false }
            ∈ (add_wallet s name wtype opening mpesa).1.wallets))) := by
  constructor
  · intro hbad
    unfold add_wallet
    have hcond : (sanitize_input name != "" && truthyStr wtype
        && opening.isSome && decide (0 ≤ opening.getD 0)) = false := by
      rcases hbad with hb | hb | hb | hb
      · simp [hb]
      · simp [hb]
      · simp [hb]
      · have := not_le.mpr hb
        simp [this]
    simp [hcond]
  · intro hn hty hsome hnn
    have hcond : (sanitize_input name != "" && truthyStr wtype
        && opening.isSome && decide (0 ≤ opening.getD 0)) = true := by
      simp [bne_iff_ne, hn, hty, hsome, hnn]
    constructor
    · intro hdup
      unfold add_wallet
      simp [hcond, hdup]
    · intro hnodup
      unfold add_wallet
      simp only [hcond, if_true, hnodup, Bool.false_eq_true, if_false]
      exact ⟨trivial, List.mem_append_right _ (List.mem_singleton.mpr rfl)⟩

/-- Witness for the amended C9: adding a Bank wallet "Savings" with opening
balance 250 to the empty store succeeds and the created row carries
`current_balance = 250` and `is_archived = false`. -/
theorem add_wallet_validation_amended_witness :
    sanitize_input (some "Savings") ≠ "" ∧
    (emptyStore.wallets.any
        (fun w => w.name == sanitize_input (some "Savings"))) = false ∧
    (add_wallet emptyStore (some "Savings") (some "Bank") (some 250) none).2
        = AddWalletResult.ok ∧
    { id := emptyStore.nextWalletId,
        wtype := (some "Bank" : Option String).getD "",
        name := sanitize_input (some "Savings"),
        opening_balance := (some (250 : ℚ)).getD 0,
        current_balance := (some (250 : ℚ)).getD 0,
        mpesa_number := sanitizeOpt none, is_archived := false }
      ∈ (add_wallet emptyStore (some "Savings") (some "Bank") (some 250)
          none).1.wallets :=
  have happ := (add_wallet_validation_amended emptyStore (some "Savings")
      (some "Bank") (some 250) none).2
    (by decide) (by decide) (by decide) (by decide)
  have hok := happ.2 (by decide)
  ⟨by decide, by decide, hok.1, hok.2⟩

/-- Counterexample to claim C10 as stated: with a store whose every attempt
raises a non-transient error, `get_categories` returns the empty list even
though the store holds five categories — the `except sqlite3.Error` branch
converts the error into an empty result instead of propagating it. -/
theorem read_error_swallow_cex :
    get_categories initStore (fun _ => StoreOutcome.otherErr) = [] ∧
    initStore.categories ≠ [] := by
  have herr : execute_with_retry (fun _ => StoreOutcome.otherErr) 3 2
      = (RetryResult.raisedOther 0, []) := by
    simp [execute_with_retry, retryAux]
  constructor
  · unfold get_categories
    rw [herr]
  · decide

/-- Claim C10 as amended: when the retry-wrapped query ultimately raises a
non-transient store error, the read helper `get_categories` catches it and
returns an empty result — the error is NOT propagated to the caller. -/
theorem read_error_to_empty (s : Store) (outcomes : Nat → StoreOutcome)
    (k : Nat)
    (herr : (execute_with_retry outcomes 3 2).1 = RetryResult.raisedOther k) :
    get_categories s outcomes = [] := by
  unfold get_categories
  rw [herr]

/-- Witness for the amended C10: a store erroring on every attempt makes
`get_categories` return the empty list. -/
theorem read_error_to_empty_witness :
    (execute_with_retry (fun _ => StoreOutcome.otherErr) 3 2).1
        = RetryResult.raisedOther 0 ∧
    get_categories initStore (fun _ => StoreOutcome.otherErr) = [] :=
  have herr : (execute_with_retry (fun _ => StoreOutcome.otherErr) 3 2).1
      = RetryResult.raisedOther 0 := by
    simp [execute_with_retry, retryAux]
  ⟨herr, read_error_to_empty initStore (fun _ => StoreOutcome.otherErr) 0 herr⟩

end ExpensesTracker
